import Mathlib

/-!
# Verification of the XIAO ESP32S3 TinyML door-status classifier pipeline

Shallow embedding of the acquisition → preprocessing → inference → decision
pipeline of the door-status sketch (`GetInputData`, `RunInferenceAndReport`,
`setup`, `loop`), with machine integers modelled as `Nat`/`Int` and explicit
`% 2^w` wrapping where the C code stores into fixed-width types.
-/

namespace DoorClassifier

/-- Semantics of storing an `Int` into a C `int8_t` (two's-complement wrap). -/
def toInt8 (z : ℤ) : ℤ := (z + 128) % 256 - 128

/-- A raw camera frame: `fb->width`, `fb->height` and the byte buffer `fb->buf`
(packed RGB565, two bytes per pixel, little-endian). Bytes are `uint8_t`,
modelled as naturals reduced `% 256` on read. -/
structure RawFrame where
  width : ℕ
  height : ℕ
  buf : List ℕ
deriving DecidableEq

/-- Models `src_buf[i*2] | (src_buf[i*2+1] << 8)`: two bytes read as a
little-endian 16-bit word. -/
def pixelWord (b0 b1 : ℕ) : ℕ := (b0 % 256) ||| ((b1 % 256) <<< 8)

/-- Models `uint8_t r = ((pixel >> 11) & 0x1F) << 3;` — 5-bit red field
expanded to 8-bit range (the `% 256` is the `uint8_t` store). -/
def expandR (pixel : ℕ) : ℕ := (((pixel >>> 11) &&& 0x1F) <<< 3) % 256

/-- Models `uint8_t g = ((pixel >> 5) & 0x3F) << 2;` — 6-bit green field
expanded to 8-bit range. -/
def expandG (pixel : ℕ) : ℕ := (((pixel >>> 5) &&& 0x3F) <<< 2) % 256

/-- Models `uint8_t b = (pixel & 0x1F) << 3;` — 5-bit blue field expanded to
8-bit range. -/
def expandB (pixel : ℕ) : ℕ := ((pixel &&& 0x1F) <<< 3) % 256

/-- Models `dest_buf[dest_index++] = (int8_t)(r - 128);` — the expanded 8-bit
channel shifted into the signed domain and stored into an `int8_t`. -/
def quantizeChannel (c : ℕ) : ℤ := toInt8 ((c : ℤ) - 128)

/-- The 16-bit word of pixel `i`: bytes `2*i` and `2*i+1` of the frame buffer
combined little-endian. -/
def framePixel (buf : List ℕ) (i : ℕ) : ℕ :=
  pixelWord (buf.getD (2 * i) 0) (buf.getD (2 * i + 1) 0)

/-- The conversion loop of `GetInputData`: for `k` remaining pixels starting at
pixel index `i`, read bytes `2*i, 2*i+1`, unpack, expand, quantize and write
the three channels at `dest_index`, `dest_index+1`, `dest_index+2` of the
destination buffer, then continue with `dest_index+3`. -/
def convertFrom (buf : List ℕ) : ℕ → List ℤ → ℕ → ℕ → List ℤ
  | 0, dest, _, _ => dest
  | k + 1, dest, i, di =>
      let pixel := framePixel buf i
      let dest := dest.set di (quantizeChannel (expandR pixel))
      let dest := dest.set (di + 1) (quantizeChannel (expandG pixel))
      let dest := dest.set (di + 2) (quantizeChannel (expandB pixel))
      convertFrom buf k dest (i + 1) (di + 3)

/-- Embeds `GetInputData`: fails (returns `false`) when the camera returned no frame
buffer; otherwise overwrites the model input tensor with the converted frame
and succeeds. The tensor passed in is the prior content of
`input->data.int8`. -/
def GetInputData (fb : Option RawFrame) (inputTensor : List ℤ) :
    Option (List ℤ) :=
  match fb with
  | none => none
  | some f => some (convertFrom f.buf (f.width * f.height) inputTensor 0 0)

/-- Modelled from the spec: the fully-populated input tensor as a direct
function of the frame alone — channels interleaved R, G, B per pixel in
row-major pixel order. Used to state that `GetInputData` fully populates the
tensor from the current frame. -/
def pixelsFlat (buf : List ℕ) : ℕ → ℕ → List ℤ
  | 0, _ => []
  | k + 1, i =>
      let pixel := framePixel buf i
      quantizeChannel (expandR pixel) :: quantizeChannel (expandG pixel) ::
        quantizeChannel (expandB pixel) :: pixelsFlat buf k (i + 1)

/-- Source constant `#define DOOR_OPEN_INDEX 1`. -/
def DOOR_OPEN_INDEX : ℕ := 1

/-- Source constant `#define DOOR_CLOSED_INDEX 0`. -/
def DOOR_CLOSED_INDEX : ℕ := 0

/-- Source constant `#define CLOSED_DOOR_THRESHOLD 0.55`. -/
def CLOSED_DOOR_THRESHOLD : ℚ := 55 / 100

/-- The two reportable door states. -/
inductive DoorState where
  | DOOR_OPEN
  | DOOR_CLOSED
deriving DecidableEq

/-- The `(scale, zero_point)` quantization descriptor of the output tensor
(`output->params`). -/
structure QuantParams where
  scale : ℚ
  zero_point : ℤ
deriving DecidableEq

/-- Models `(float)(raw - output->params.zero_point) * output->params.scale`. -/
def dequantize (raw : ℤ) (p : QuantParams) : ℚ :=
  ((raw : ℚ) - (p.zero_point : ℚ)) * p.scale

/-- The decision emitted by one completed cycle: binary state plus the two
de-quantized scores it was derived from. -/
structure DecisionResult where
  state : DoorState
  doorClosedScore : ℚ
  doorOpenScore : ℚ
deriving DecidableEq

/-- Models `if (door_closed_score < CLOSED_DOOR_THRESHOLD)` then OPEN else
CLOSED. -/
def decisionPolicy (door_closed_score : ℚ) : DoorState :=
  if door_closed_score < CLOSED_DOOR_THRESHOLD then DoorState.DOOR_OPEN
  else DoorState.DOOR_CLOSED

/-- The environment of one cycle: the frame the camera delivers (or `none` on
capture failure), whether `interpreter->Invoke()` succeeds, and the content of
the model's output tensor (`output->data.int8` and `output->params`) after the
forward pass. The model itself is an opaque external collaborator. -/
structure CycleEnv where
  frame : Option RawFrame
  invokeOk : Bool
  outputData : ℕ → ℤ
  outputParams : QuantParams

/-- Embeds `RunInferenceAndReport`: acquire and convert a frame (aborting the cycle
on capture failure), run the forward pass (aborting on an execution fault),
then de-quantize the two class scores and threshold the closed score. Returns
the decision (if any) together with the resulting input-tensor content. -/
def RunInferenceAndReport (env : CycleEnv) (inputTensor : List ℤ) :
    Option DecisionResult × List ℤ :=
  match GetInputData env.frame inputTensor with
  | none => (none, inputTensor)
  | some t =>
    if env.invokeOk then
      let door_open_score := dequantize (env.outputData DOOR_OPEN_INDEX) env.outputParams
      let door_closed_score := dequantize (env.outputData DOOR_CLOSED_INDEX) env.outputParams
      (some ⟨decisionPolicy door_closed_score, door_closed_score, door_open_score⟩, t)
    else (none, t)

/-- The outcomes `setup()` can depend on: schema-version check,
`heap_caps_malloc` of the tensor arena, and `AllocateTensors()`. -/
structure SetupEnv where
  versionOk : Bool
  arenaAllocOk : Bool
  tensorsAllocOk : Bool
deriving DecidableEq

/-- Embeds `setup()`: on the first failing step it prints one fatal diagnostic and
`return`s, leaving the interpreter and tensor handles unbound (null). Returns
whether the engine came up bound, and the number of fatal diagnostics
emitted. -/
def setup (e : SetupEnv) : Bool × ℕ :=
  if e.versionOk = false then (false, 1)
  else if e.arenaAllocOk = false then (false, 1)
  else if e.tensorsAllocOk = false then (false, 1)
  else (true, 0)

/-- What one `loop()` iteration produces. -/
inductive CycleOutcome where
  | noDecision
  | decision (d : DecisionResult)
  | crash
deriving DecidableEq

/-- One `loop()` iteration. When setup completed, this is
`RunInferenceAndReport`. When setup bailed out early, `input` and
`interpreter` are still null: `GetInputData` returns `false` harmlessly if the
camera also fails (the null tensor is read only after the frame check), but
with a frame present `int8_t *dest_buf = (int8_t *)input->data.int8;`
dereferences the null `TfLiteTensor*`. -/
def loopCycle (engineReady : Bool) (env : CycleEnv) (t : List ℤ) :
    CycleOutcome × List ℤ :=
  if engineReady then
    match RunInferenceAndReport env t with
    | (none, t') => (CycleOutcome.noDecision, t')
    | (some d, t') => (CycleOutcome.decision d, t')
  else
    match env.frame with
    | none => (CycleOutcome.noDecision, t)
    | some _ => (CycleOutcome.crash, t)

/-- The outer loop: one cycle per scheduled tick, stopping only if a cycle
crashes the device. -/
def runLoop (engineReady : Bool) : List CycleEnv → List ℤ → List CycleOutcome
  | [], _ => []
  | env :: rest, t =>
      let (o, t') := loopCycle engineReady env t
      if o = CycleOutcome.crash then [o]
      else o :: runLoop engineReady rest t'

/-- The Arduino runtime: `setup()` runs once, then `loop()` is invoked
repeatedly regardless of how `setup()` returned. Yields the number of fatal
setup diagnostics and the per-cycle outcomes. -/
def runSystem (se : SetupEnv) (envs : List CycleEnv) (t0 : List ℤ) :
    ℕ × List CycleOutcome :=
  let (ready, diags) := setup se
  (diags, runLoop ready envs t0)

/-! ## Basic arithmetic facts about the channel pipeline -/

/-- Storing a value already in the `int8_t` range is the identity. -/
lemma toInt8_eq_self {z : ℤ} (h1 : -128 ≤ z) (h2 : z ≤ 127) : toInt8 z = z := by
  unfold toInt8
  omega

lemma expandR_eq (p : ℕ) : expandR p = ((p >>> 11) &&& 31) * 8 := by
  have h : (p >>> 11) &&& 31 ≤ 31 := Nat.and_le_right
  show ((((p >>> 11) &&& 31)) <<< 3) % 256 = _
  rw [Nat.shiftLeft_eq]
  have h8 : (2 : ℕ) ^ 3 = 8 := by norm_num
  rw [h8]
  exact Nat.mod_eq_of_lt (by omega)

lemma expandG_eq (p : ℕ) : expandG p = ((p >>> 5) &&& 63) * 4 := by
  have h : (p >>> 5) &&& 63 ≤ 63 := Nat.and_le_right
  show ((((p >>> 5) &&& 63)) <<< 2) % 256 = _
  rw [Nat.shiftLeft_eq]
  have h4 : (2 : ℕ) ^ 2 = 4 := by norm_num
  rw [h4]
  exact Nat.mod_eq_of_lt (by omega)

lemma expandB_eq (p : ℕ) : expandB p = (p &&& 31) * 8 := by
  have h : p &&& 31 ≤ 31 := Nat.and_le_right
  show ((p &&& 31) <<< 3) % 256 = _
  rw [Nat.shiftLeft_eq]
  have h8 : (2 : ℕ) ^ 3 = 8 := by norm_num
  rw [h8]
  exact Nat.mod_eq_of_lt (by omega)

lemma expandR_lt (p : ℕ) : expandR p < 256 := by
  have h : (p >>> 11) &&& 31 ≤ 31 := Nat.and_le_right
  rw [expandR_eq]; omega

lemma expandG_lt (p : ℕ) : expandG p < 256 := by
  have h : (p >>> 5) &&& 63 ≤ 63 := Nat.and_le_right
  rw [expandG_eq]; omega

lemma expandB_lt (p : ℕ) : expandB p < 256 := by
  have h : p &&& 31 ≤ 31 := Nat.and_le_right
  rw [expandB_eq]; omega

/-- For an expanded channel byte (`< 256`) the `int8_t` store never wraps:
the stored value is exactly the byte minus 128. -/
lemma quantizeChannel_eq {c : ℕ} (h : c < 256) :
    quantizeChannel c = (c : ℤ) - 128 := by
  unfold quantizeChannel toInt8
  omega

lemma quantizeChannel_range {c : ℕ} (h : c < 256) :
    -128 ≤ quantizeChannel c ∧ quantizeChannel c ≤ 127 := by
  rw [quantizeChannel_eq h]
  omega

/-! ## Structure of the conversion loop -/

lemma pixelsFlat_length (buf : List ℕ) :
    ∀ (k i : ℕ), (pixelsFlat buf k i).length = 3 * k := by
  intro k
  induction k with
  | zero => intro i; rfl
  | succ k ih =>
      intro i
      simp only [pixelsFlat, List.length_cons, ih]
      omega

lemma convertFrom_length (buf : List ℕ) :
    ∀ (k : ℕ) (dest : List ℤ) (i di : ℕ),
      (convertFrom buf k dest i di).length = dest.length := by
  intro k
  induction k with
  | zero => intro dest i di; rfl
  | succ k ih =>
      intro dest i di
      simp only [convertFrom, ih, List.length_set]

/-- Effect of the three consecutive channel stores on an arbitrary index. -/
lemma set3_getElem? (dest : List ℤ) (di : ℕ) (a b c : ℤ) (m : ℕ)
    (h : di + 3 ≤ dest.length) :
    (((dest.set di a).set (di + 1) b).set (di + 2) c)[m]? =
      if m = di then some a
      else if m = di + 1 then some b
      else if m = di + 2 then some c
      else dest[m]? := by
  by_cases h2 : m = di + 2
  · rw [h2, List.getElem?_set_self (by simp only [List.length_set]; omega),
      if_neg (by omega : ¬ (di + 2 = di)),
      if_neg (by omega : ¬ (di + 2 = di + 1)), if_pos rfl]
  · rw [List.getElem?_set_ne (by omega : di + 2 ≠ m)]
    by_cases h1 : m = di + 1
    · rw [h1, List.getElem?_set_self (by simp only [List.length_set]; omega),
        if_neg (by omega : ¬ (di + 1 = di)), if_pos rfl]
    · rw [List.getElem?_set_ne (by omega : di + 1 ≠ m)]
      by_cases h0 : m = di
      · rw [h0, List.getElem?_set_self (by omega), if_pos rfl]
      · rw [List.getElem?_set_ne (by omega : di ≠ m),
          if_neg h0, if_neg h1, if_neg h2]

/-- Pointwise description of the conversion loop: positions `di ≤ m < di+3*k`
hold the freshly converted channel stream; all other positions keep the prior
buffer content. -/
lemma convertFrom_getElem? (buf : List ℕ) :
    ∀ (k i di : ℕ) (dest : List ℤ) (m : ℕ), di + 3 * k ≤ dest.length →
      (convertFrom buf k dest i di)[m]? =
        if di ≤ m ∧ m < di + 3 * k then (pixelsFlat buf k i)[m - di]?
        else dest[m]? := by
  intro k
  induction k with
  | zero =>
      intro i di dest m _
      have hc : ¬ (di ≤ m ∧ m < di + 3 * 0) := by omega
      simp only [convertFrom, if_neg hc]
  | succ k ih =>
      intro i di dest m h
      simp only [convertFrom]
      rw [ih (i + 1) (di + 3) _ m
        (by simp only [List.length_set]; omega)]
      rw [set3_getElem? dest di _ _ _ m (by omega)]
      by_cases hA : di + 3 ≤ m ∧ m < di + 3 + 3 * k
      · rw [if_pos hA, if_pos (by omega : di ≤ m ∧ m < di + 3 * (k + 1))]
        obtain ⟨n, hn⟩ : ∃ n, m - di = n + 3 := ⟨m - di - 3, by omega⟩
        rw [hn, show m - (di + 3) = n by omega]
        simp only [pixelsFlat, List.getElem?_cons_succ]
      · rw [if_neg hA]
        by_cases h0 : m = di
        · rw [if_pos h0, if_pos (by omega : di ≤ m ∧ m < di + 3 * (k + 1)),
            show m - di = 0 by omega]
          simp only [pixelsFlat, List.getElem?_cons_zero]
        · rw [if_neg h0]
          by_cases h1 : m = di + 1
          · rw [if_pos h1,
              if_pos (by omega : di ≤ m ∧ m < di + 3 * (k + 1)),
              show m - di = 1 by omega]
            simp only [pixelsFlat, List.getElem?_cons_succ,
              List.getElem?_cons_zero]
          · rw [if_neg h1]
            by_cases h2 : m = di + 2
            · rw [if_pos h2,
                if_pos (by omega : di ≤ m ∧ m < di + 3 * (k + 1)),
                show m - di = 2 by omega]
              simp only [pixelsFlat, List.getElem?_cons_succ,
                List.getElem?_cons_zero]
            · rw [if_neg h2,
                if_neg (by omega : ¬ (di ≤ m ∧ m < di + 3 * (k + 1)))]

/-- With a destination buffer of exactly matching capacity, the conversion
loop's result is the pure channel stream of the frame: nothing of the prior
buffer content survives. -/
lemma convertFrom_eq_pixelsFlat (buf : List ℕ) (k : ℕ) (dest : List ℤ)
    (h : dest.length = 3 * k) :
    convertFrom buf k dest 0 0 = pixelsFlat buf k 0 := by
  apply List.ext_getElem?
  intro n
  rw [convertFrom_getElem? buf k 0 0 dest n (by omega)]
  by_cases hn : n < 3 * k
  · rw [if_pos ⟨Nat.zero_le n, by omega⟩, Nat.sub_zero]
  · rw [if_neg (by omega)]
    rw [List.getElem?_eq_none (by omega),
      List.getElem?_eq_none (by rw [pixelsFlat_length]; omega)]

/-- The `% 256` of the `uint8_t` store is invisible: the shifted field already
fits in a byte. -/
lemma expandR_eq_shift (p : ℕ) : expandR p = ((p >>> 11) &&& 0x1F) <<< 3 := by
  rw [expandR_eq, Nat.shiftLeft_eq]

lemma expandG_eq_shift (p : ℕ) : expandG p = ((p >>> 5) &&& 0x3F) <<< 2 := by
  rw [expandG_eq, Nat.shiftLeft_eq]

lemma expandB_eq_shift (p : ℕ) : expandB p = (p &&& 0x1F) <<< 3 := by
  rw [expandB_eq, Nat.shiftLeft_eq]

lemma pixelsFlat_getElem?_r (buf : List ℕ) :
    ∀ (k j i : ℕ), j < k →
      (pixelsFlat buf k i)[3 * j]? =
        some (quantizeChannel (expandR (framePixel buf (i + j)))) := by
  intro k
  induction k with
  | zero => intro j i h; exact absurd h (Nat.not_lt_zero j)
  | succ k ih =>
      intro j i h
      cases j with
      | zero =>
          simp only [Nat.mul_zero, pixelsFlat, List.getElem?_cons_zero,
            Nat.add_zero]
      | succ j =>
          rw [show 3 * (j + 1) = 3 * j + 1 + 1 + 1 by ring]
          simp only [pixelsFlat, List.getElem?_cons_succ]
          rw [ih j (i + 1) (by omega), show i + 1 + j = i + (j + 1) by omega]

lemma pixelsFlat_getElem?_g (buf : List ℕ) :
    ∀ (k j i : ℕ), j < k →
      (pixelsFlat buf k i)[3 * j + 1]? =
        some (quantizeChannel (expandG (framePixel buf (i + j)))) := by
  intro k
  induction k with
  | zero => intro j i h; exact absurd h (Nat.not_lt_zero j)
  | succ k ih =>
      intro j i h
      cases j with
      | zero =>
          simp only [Nat.mul_zero, Nat.zero_add, pixelsFlat,
            List.getElem?_cons_succ, List.getElem?_cons_zero, Nat.add_zero]
      | succ j =>
          rw [show 3 * (j + 1) + 1 = 3 * j + 1 + 1 + 1 + 1 by ring]
          simp only [pixelsFlat, List.getElem?_cons_succ]
          rw [ih j (i + 1) (by omega), show i + 1 + j = i + (j + 1) by omega]

lemma pixelsFlat_getElem?_b (buf : List ℕ) :
    ∀ (k j i : ℕ), j < k →
      (pixelsFlat buf k i)[3 * j + 2]? =
        some (quantizeChannel (expandB (framePixel buf (i + j)))) := by
  intro k
  induction k with
  | zero => intro j i h; exact absurd h (Nat.not_lt_zero j)
  | succ k ih =>
      intro j i h
      cases j with
      | zero =>
          simp only [Nat.mul_zero, Nat.zero_add, pixelsFlat,
            List.getElem?_cons_succ, List.getElem?_cons_zero, Nat.add_zero]
      | succ j =>
          rw [show 3 * (j + 1) + 2 = 3 * j + 2 + 1 + 1 + 1 by ring]
          simp only [pixelsFlat, List.getElem?_cons_succ]
          rw [ih j (i + 1) (by omega), show i + 1 + j = i + (j + 1) by omega]

/-- Every element of the converted channel stream is a stored channel value,
hence in the `int8_t` range. -/
lemma pixelsFlat_mem_range (buf : List ℕ) :
    ∀ (k i : ℕ), ∀ v ∈ pixelsFlat buf k i, -128 ≤ v ∧ v ≤ 127 := by
  intro k
  induction k with
  | zero => intro i v hv; simp only [pixelsFlat, List.not_mem_nil] at hv
  | succ k ih =>
      intro i v hv
      simp only [pixelsFlat, List.mem_cons] at hv
      rcases hv with h | h | h | h
      · exact h ▸ quantizeChannel_range (expandR_lt _)
      · exact h ▸ quantizeChannel_range (expandG_lt _)
      · exact h ▸ quantizeChannel_range (expandB_lt _)
      · exact ih (i + 1) v h

/-! ## Round-trip of the truncated bit fields -/

lemma roundtrip_r (w : ℕ) :
    (quantizeChannel (expandR w) + 128).toNat >>> 3 = (w >>> 11) &&& 0x1F := by
  have hx : (w >>> 11) &&& 31 ≤ 31 := Nat.and_le_right
  rw [quantizeChannel_eq (expandR_lt w), expandR_eq,
    Nat.shiftRight_eq_div_pow, show (2 : ℕ) ^ 3 = 8 by norm_num]
  omega

lemma roundtrip_g (w : ℕ) :
    (quantizeChannel (expandG w) + 128).toNat >>> 2 = (w >>> 5) &&& 0x3F := by
  have hx : (w >>> 5) &&& 63 ≤ 63 := Nat.and_le_right
  rw [quantizeChannel_eq (expandG_lt w), expandG_eq,
    Nat.shiftRight_eq_div_pow, show (2 : ℕ) ^ 2 = 4 by norm_num]
  omega

lemma roundtrip_b (w : ℕ) :
    (quantizeChannel (expandB w) + 128).toNat >>> 3 = w &&& 0x1F := by
  have hx : w &&& 31 ≤ 31 := Nat.and_le_right
  rw [quantizeChannel_eq (expandB_lt w), expandB_eq,
    Nat.shiftRight_eq_div_pow, show (2 : ℕ) ^ 3 = 8 by norm_num]
  omega

/-! ## Claim theorems -/

/-- C1: the Decision Policy yields `DOOR_OPEN` iff the de-quantized
closed-class score is strictly below 0.55, and `DOOR_CLOSED` otherwise; a
score of exactly 0.55 resolves to `DOOR_CLOSED`; and the state reported by a
completed cycle is the policy applied to the de-quantized closed-class score
(index 0 of the output tensor), not to the open-class score. -/
theorem decisionPolicy_thresholds_closed_score :
    (∀ s : ℚ, decisionPolicy s = DoorState.DOOR_OPEN ↔ s < 55 / 100) ∧
    (∀ s : ℚ, decisionPolicy s = DoorState.DOOR_CLOSED ↔ 55 / 100 ≤ s) ∧
    decisionPolicy (55 / 100) = DoorState.DOOR_CLOSED ∧
    (∀ (f : RawFrame) (out : ℕ → ℤ) (p : QuantParams) (t : List ℤ),
      Option.map DecisionResult.state
          (RunInferenceAndReport ⟨some f, true, out, p⟩ t).1 =
        some (decisionPolicy (dequantize (out DOOR_CLOSED_INDEX) p))) := by
  refine ⟨?_, ?_, ?_, ?_⟩
  · intro s
    by_cases h : s < 55 / 100
    · simp [decisionPolicy, CLOSED_DOOR_THRESHOLD, h]
    · simp [decisionPolicy, CLOSED_DOOR_THRESHOLD, h]
  · intro s
    by_cases h : s < 55 / 100
    · simp [decisionPolicy, CLOSED_DOOR_THRESHOLD, h, not_le.mpr h]
    · simp [decisionPolicy, CLOSED_DOOR_THRESHOLD, h, not_lt.mp h]
  · simp [decisionPolicy, CLOSED_DOOR_THRESHOLD]
  · intro f out p t
    rfl

/-- C2: `GetInputData` reads each pixel's two bytes as a little-endian 16-bit
word, extracts the 5-bit red (bits 15..11), 6-bit green (bits 10..5) and
5-bit blue (bits 4..0) fields, left-shifts them by 3, 2 and 3 bits, subtracts
128, and stores the three signed results interleaved R, G, B at positions
`3*i`, `3*i+1`, `3*i+2` for source pixel `i` — the same row-major pixel order
as the source. -/
theorem getInputData_unpacks_rgb565 (f : RawFrame) (prior : List ℤ)
    (hlen : prior.length = 3 * (f.width * f.height))
    (i : ℕ) (hi : i < f.width * f.height) :
    ∃ out, GetInputData (some f) prior = some out ∧
      out.length = 3 * (f.width * f.height) ∧
      out.getD (3 * i) 0 =
        ((((pixelWord (f.buf.getD (2 * i) 0) (f.buf.getD (2 * i + 1) 0)
          >>> 11) &&& 0x1F) <<< 3 : ℕ) : ℤ) - 128 ∧
      out.getD (3 * i + 1) 0 =
        ((((pixelWord (f.buf.getD (2 * i) 0) (f.buf.getD (2 * i + 1) 0)
          >>> 5) &&& 0x3F) <<< 2 : ℕ) : ℤ) - 128 ∧
      out.getD (3 * i + 2) 0 =
        (((pixelWord (f.buf.getD (2 * i) 0) (f.buf.getD (2 * i + 1) 0)
          &&& 0x1F) <<< 3 : ℕ) : ℤ) - 128 := by
  refine ⟨pixelsFlat f.buf (f.width * f.height) 0, ?_, ?_, ?_, ?_, ?_⟩
  · simp only [GetInputData]
    rw [convertFrom_eq_pixelsFlat f.buf (f.width * f.height) prior hlen]
  · rw [pixelsFlat_length]
  · rw [List.getD_eq_getElem?_getD,
      pixelsFlat_getElem?_r f.buf (f.width * f.height) i 0 hi]
    rw [Option.getD_some, Nat.zero_add,
      quantizeChannel_eq (expandR_lt _), expandR_eq_shift]
    rfl
  · rw [List.getD_eq_getElem?_getD,
      pixelsFlat_getElem?_g f.buf (f.width * f.height) i 0 hi]
    rw [Option.getD_some, Nat.zero_add,
      quantizeChannel_eq (expandG_lt _), expandG_eq_shift]
    rfl
  · rw [List.getD_eq_getElem?_getD,
      pixelsFlat_getElem?_b f.buf (f.width * f.height) i 0 hi]
    rw [Option.getD_some, Nat.zero_add,
      quantizeChannel_eq (expandB_lt _), expandB_eq_shift]
    rfl

/-- C2 witness: a one-pixel frame with bytes `0x12, 0x34` (word `0x3412`). -/
theorem getInputData_unpacks_rgb565_witness :
    ∃ out, GetInputData (some ⟨1, 1, [18, 52]⟩) [0, 0, 0] = some out ∧
      out.length = 3 * (1 * 1) ∧
      out.getD (3 * 0) 0 =
        ((((pixelWord (([18, 52] : List ℕ).getD (2 * 0) 0)
          (([18, 52] : List ℕ).getD (2 * 0 + 1) 0)
          >>> 11) &&& 0x1F) <<< 3 : ℕ) : ℤ) - 128 ∧
      out.getD (3 * 0 + 1) 0 =
        ((((pixelWord (([18, 52] : List ℕ).getD (2 * 0) 0)
          (([18, 52] : List ℕ).getD (2 * 0 + 1) 0)
          >>> 5) &&& 0x3F) <<< 2 : ℕ) : ℤ) - 128 ∧
      out.getD (3 * 0 + 2) 0 =
        (((pixelWord (([18, 52] : List ℕ).getD (2 * 0) 0)
          (([18, 52] : List ℕ).getD (2 * 0 + 1) 0)
          &&& 0x1F) <<< 3 : ℕ) : ℤ) - 128 :=
  getInputData_unpacks_rgb565 ⟨1, 1, [18, 52]⟩ [0, 0, 0] (by decide) 0
    (by decide)

/-- C3: each stored channel value round-trips on the truncated bit width:
adding 128 back and right-shifting by the expansion amount (3 for red and
blue, 2 for green) reproduces the original 5- or 6-bit field of the packed
16-bit word exactly. -/
theorem channel_roundtrip (b0 b1 : ℕ) :
    (quantizeChannel (expandR (pixelWord b0 b1)) + 128).toNat >>> 3 =
      ((pixelWord b0 b1) >>> 11) &&& 0x1F ∧
    (quantizeChannel (expandG (pixelWord b0 b1)) + 128).toNat >>> 2 =
      ((pixelWord b0 b1) >>> 5) &&& 0x3F ∧
    (quantizeChannel (expandB (pixelWord b0 b1)) + 128).toNat >>> 3 =
      (pixelWord b0 b1) &&& 0x1F :=
  ⟨roundtrip_r (pixelWord b0 b1), roundtrip_g (pixelWord b0 b1),
    roundtrip_b (pixelWord b0 b1)⟩

/-- C4: every element `GetInputData` writes into the input tensor lies in
[-128, 127], and the expansion followed by the subtraction of 128 and the
`int8_t` store never wraps: the stored value is exactly the expanded byte
minus 128, for each of the three channels. -/
theorem inputTensor_in_int8_range :
    (∀ (f : RawFrame) (prior : List ℤ),
      prior.length = 3 * (f.width * f.height) →
      ∃ out, GetInputData (some f) prior = some out ∧
        ∀ v ∈ out, -128 ≤ v ∧ v ≤ 127) ∧
    (∀ p : ℕ,
      quantizeChannel (expandR p) = ((expandR p : ℕ) : ℤ) - 128 ∧
      quantizeChannel (expandG p) = ((expandG p : ℕ) : ℤ) - 128 ∧
      quantizeChannel (expandB p) = ((expandB p : ℕ) : ℤ) - 128) := by
  constructor
  · intro f prior hlen
    refine ⟨pixelsFlat f.buf (f.width * f.height) 0, ?_, ?_⟩
    · simp only [GetInputData]
      rw [convertFrom_eq_pixelsFlat f.buf (f.width * f.height) prior hlen]
    · exact pixelsFlat_mem_range f.buf (f.width * f.height) 0
  · intro p
    exact ⟨quantizeChannel_eq (expandR_lt p), quantizeChannel_eq (expandG_lt p),
      quantizeChannel_eq (expandB_lt p)⟩

/-- C4 witness: a concrete one-pixel frame. -/
theorem inputTensor_in_int8_range_witness :
    ∃ out, GetInputData (some ⟨1, 1, [255, 255]⟩) [0, 0, 0] = some out ∧
      ∀ v ∈ out, -128 ≤ v ∧ v ≤ 127 :=
  inputTensor_in_int8_range.1 ⟨1, 1, [255, 255]⟩ [0, 0, 0] (by decide)

/-- C5: the Score Interpreter computes `score = (raw - zero_point) * scale`,
a pure total function of its arguments, and a completed cycle applies it to
each of the two classes independently (closed from index 0, open from
index 1 of the output tensor). -/
theorem scoreInterpreter_affine :
    (∀ (raw : ℤ) (p : QuantParams),
      dequantize raw p = ((raw : ℚ) - (p.zero_point : ℚ)) * p.scale) ∧
    (∀ (f : RawFrame) (out : ℕ → ℤ) (p : QuantParams) (t : List ℤ),
      ∃ d, (RunInferenceAndReport ⟨some f, true, out, p⟩ t).1 = some d ∧
        d.doorClosedScore =
          ((out DOOR_CLOSED_INDEX : ℤ) - p.zero_point : ℤ) * p.scale ∧
        d.doorOpenScore =
          ((out DOOR_OPEN_INDEX : ℤ) - p.zero_point : ℤ) * p.scale) := by
  constructor
  · intro raw p
    rfl
  · intro f out p t
    refine ⟨_, rfl, ?_, ?_⟩
    · show dequantize (out DOOR_CLOSED_INDEX) p = _
      rw [dequantize]
      push_cast
      ring
    · show dequantize (out DOOR_OPEN_INDEX) p = _
      rw [dequantize]
      push_cast
      ring

/-- C6 (failing run): when the arena allocation fails at setup, `setup()`
emits exactly one fatal diagnostic and returns — but the runtime still calls
`loop()`, so a cycle is attempted: with a frame available, the first cycle
dereferences the null input tensor. The pipeline does not halt before a cycle
executes. -/
theorem arenaFailure_still_enters_loop :
    runSystem ⟨true, false, true⟩
        [⟨some ⟨96, 96, []⟩, true, fun _ => 0, ⟨1, 0⟩⟩] [] =
      (1, [CycleOutcome.crash]) := rfl

/-- C7: a cycle whose frame acquisition fails or whose forward pass faults is
abandoned: no `DecisionResult` is emitted, and the loop proceeds
unconditionally to the remaining scheduled cycles. -/
theorem transientFailure_abandons_cycle (env : CycleEnv)
    (rest : List CycleEnv) (t : List ℤ)
    (h : env.frame = none ∨ env.invokeOk = false) :
    (RunInferenceAndReport env t).1 = none ∧
    runLoop true (env :: rest) t =
      CycleOutcome.noDecision ::
        runLoop true rest (RunInferenceAndReport env t).2 := by
  obtain ⟨fr, inv, od, op⟩ := env
  rcases h with h | h
  · simp only at h
    subst h
    exact ⟨rfl, rfl⟩
  · simp only at h
    subst h
    cases fr with
    | none => exact ⟨rfl, rfl⟩
    | some f => exact ⟨rfl, rfl⟩

/-- C7 witness: a cycle with no frame. -/
theorem transientFailure_abandons_cycle_witness :
    (RunInferenceAndReport ⟨none, true, fun _ => 0, ⟨1, 0⟩⟩
      ([] : List ℤ)).1 = none ∧
    runLoop true [⟨none, true, fun _ => 0, ⟨1, 0⟩⟩] [] =
      CycleOutcome.noDecision ::
        runLoop true []
          (RunInferenceAndReport ⟨none, true, fun _ => 0, ⟨1, 0⟩⟩ []).2 :=
  transientFailure_abandons_cycle ⟨none, true, fun _ => 0, ⟨1, 0⟩⟩ [] []
    (Or.inl rfl)

/-- C8: `GetInputData` returns failure iff the frame is absent; for every
acquired frame (with a matching-capacity tensor) it succeeds and the tensor is
fully populated from the frame alone. -/
theorem getInputData_fails_iff_no_frame :
    (∀ (fb : Option RawFrame) (prior : List ℤ),
      GetInputData fb prior = none ↔ fb = none) ∧
    (∀ (f : RawFrame) (prior : List ℤ),
      prior.length = 3 * (f.width * f.height) →
      GetInputData (some f) prior =
        some (pixelsFlat f.buf (f.width * f.height) 0)) := by
  constructor
  · intro fb prior
    cases fb with
    | none => simp [GetInputData]
    | some f => simp [GetInputData]
  · intro f prior hlen
    simp only [GetInputData]
    rw [convertFrom_eq_pixelsFlat f.buf (f.width * f.height) prior hlen]

/-- C8 witness: a concrete one-pixel frame. -/
theorem getInputData_fails_iff_no_frame_witness :
    GetInputData (some ⟨1, 1, [18, 52]⟩) [7, 8, 9] =
      some (pixelsFlat [18, 52] (1 * 1) 0) :=
  getInputData_fails_iff_no_frame.2 ⟨1, 1, [18, 52]⟩ [7, 8, 9] (by decide)

/-- C9: two runs of the Pixel Converter on the same frame with arbitrary
different prior input-tensor contents produce identical tensors — every
element is overwritten from the current frame, so nothing carries over from
the previous cycle. -/
theorem converter_overwrites_prior (f : RawFrame) (prior1 prior2 : List ℤ)
    (h1 : prior1.length = 3 * (f.width * f.height))
    (h2 : prior2.length = 3 * (f.width * f.height)) :
    GetInputData (some f) prior1 = GetInputData (some f) prior2 := by
  simp only [GetInputData]
  rw [convertFrom_eq_pixelsFlat f.buf (f.width * f.height) prior1 h1,
    convertFrom_eq_pixelsFlat f.buf (f.width * f.height) prior2 h2]

/-- C9 witness: same frame, two different prior tensors. -/
theorem converter_overwrites_prior_witness :
    GetInputData (some ⟨1, 1, [18, 52]⟩) [1, 2, 3] =
      GetInputData (some ⟨1, 1, [18, 52]⟩) [-4, -5, -6] :=
  converter_overwrites_prior ⟨1, 1, [18, 52]⟩ [1, 2, 3] [-4, -5, -6]
    (by decide) (by decide)

/-- C10: two completed cycles with equal de-quantized closed-class scores
report the same binary door state, no matter how their open-class outputs
differ — the open score never influences the decision. -/
theorem decision_ignores_open_score (f1 f2 : RawFrame) (out1 out2 : ℕ → ℤ)
    (p1 p2 : QuantParams) (t1 t2 : List ℤ)
    (h : dequantize (out1 DOOR_CLOSED_INDEX) p1 =
      dequantize (out2 DOOR_CLOSED_INDEX) p2) :
    Option.map DecisionResult.state
        (RunInferenceAndReport ⟨some f1, true, out1, p1⟩ t1).1 =
      Option.map DecisionResult.state
        (RunInferenceAndReport ⟨some f2, true, out2, p2⟩ t2).1 := by
  show some (decisionPolicy (dequantize (out1 DOOR_CLOSED_INDEX) p1)) =
    some (decisionPolicy (dequantize (out2 DOOR_CLOSED_INDEX) p2))
  rw [h]

/-- C10 witness: equal closed-class raw outputs, open-class outputs 100
vs -100. -/
theorem decision_ignores_open_score_witness :
    Option.map DecisionResult.state
        (RunInferenceAndReport ⟨some ⟨1, 1, [0, 0]⟩, true,
          (fun n => if n = 1 then 100 else 20), ⟨1, 0⟩⟩ [0, 0, 0]).1 =
      Option.map DecisionResult.state
        (RunInferenceAndReport ⟨some ⟨1, 1, [0, 0]⟩, true,
          (fun n => if n = 1 then -100 else 20), ⟨1, 0⟩⟩ [0, 0, 0]).1 :=
  decision_ignores_open_score ⟨1, 1, [0, 0]⟩ ⟨1, 1, [0, 0]⟩
    (fun n => if n = 1 then 100 else 20) (fun n => if n = 1 then -100 else 20)
    ⟨1, 0⟩ ⟨1, 0⟩ [0, 0, 0] [0, 0, 0] rfl

end DoorClassifier
